import Mathlib

/-
Verification of the drugBot grant-assistant pipeline.

This file gives a shallow embedding, in Lean 4, of the core orchestration
pipeline of the repository: the supervisor state machine
(agents/supervisor.py), the document retriever with its language detection,
relevance filter and multi-search strategy (agents/document_retriever.py),
the cross-document grouping and comparison logic
(agents/cross_document_agent.py), the QA agent short-circuits
(agents/qa_agent.py) and the source tracker citation deduplication
(agents/source_tracker.py).

Modelling conventions:
  * Python strings are Lean `String`s; all operations (split, lower, strip,
    replace, substring test) are implemented by structural recursion over
    the character list so that the kernel can evaluate them.  Python
    `str.lower`/`str.upper` are modelled as ASCII case mapping; all keyword
    tables in the source are ASCII-lowercase (plus literal lowercase
    Turkish/Italian letters), so the two agree on every input the tables
    can match.
  * Python dicts used as metadata records become structures with `Option`
    fields; `dict.get(k, default)` becomes `Option.getD`.
  * The external vector-search backend and the LLM backend are parameters;
    a call that may raise is modelled as a function into `Except String _`.
    Python try/except blocks become `match` on that `Except`.
  * Python sets that are only used for membership tests (the dedup `seen`
    sets) are modelled as lists with membership; a Python set whose
    iteration order leaks into a prompt string (only `set(doc_types)` in
    the comparison prompt) is modelled as first-occurrence dedup, since
    CPython leaves that order unspecified.
-/

namespace DrugBot

/-! ### Character/string primitives (kernel-computable) -/

/-- ASCII lowercase of one character (model of Python `str.lower`). -/
def lowCh (c : Char) : Char :=
  if 'A' ≤ c && c ≤ 'Z' then Char.ofNat (c.toNat + 32) else c

/-- ASCII uppercase of one character (model of Python `str.upper`). -/
def upCh (c : Char) : Char :=
  if 'a' ≤ c && c ≤ 'z' then Char.ofNat (c.toNat - 32) else c

/-- Model of Python `s.lower()`. -/
def lowerStr (s : String) : String := String.mk (s.data.map lowCh)

/-- Model of Python `s.upper()`. -/
def upperStr (s : String) : String := String.mk (s.data.map upCh)

/-- Does `hay` start with `nd`? -/
def leadEq : List Char → List Char → Bool
  | [], _ => true
  | _ :: _, [] => false
  | a :: as, b :: bs => a == b && leadEq as bs

/-- Substring test over char lists (model of Python `nd in hay`). -/
def hasSubList (nd : List Char) : List Char → Bool
  | [] => nd.isEmpty
  | c :: cs => leadEq nd (c :: cs) || hasSubList nd cs

/-- Model of Python `needle in hay` for strings. -/
def hasSubstr (needle hay : String) : Bool := hasSubList needle.data hay.data

/-- Helper for `pySplit`: accumulate the current word (reversed). -/
def splitWsGo (cur : List Char) : List Char → List String
  | [] => if cur.isEmpty then [] else [String.mk cur.reverse]
  | c :: cs =>
    if c.isWhitespace then
      if cur.isEmpty then splitWsGo [] cs
      else String.mk cur.reverse :: splitWsGo [] cs
    else splitWsGo (c :: cur) cs

/-- Model of Python `s.split()`: split on whitespace runs, drop empties. -/
def pySplit (s : String) : List String := splitWsGo [] s.data

/-- Model of Python `s.strip()`. -/
def trimStr (s : String) : String :=
  String.mk (((s.data.dropWhile Char.isWhitespace).reverse.dropWhile
      Char.isWhitespace).reverse)

/-- Fuel-driven worker for `replaceAll`; the fuel is the input length, and
every step consumes at least one character, so the `0` case is unreachable
for the initial fuel.  The empty pattern (never used by the source) is a
no-op here. -/
def replAllGo (pat rep : List Char) : Nat → List Char → List Char
  | _, [] => []
  | 0, cs => cs
  | Nat.succ n, c :: cs =>
    if !pat.isEmpty && leadEq pat (c :: cs) then
      rep ++ replAllGo pat rep n (List.drop (pat.length - 1) cs)
    else c :: replAllGo pat rep n cs

/-- Model of Python `s.replace(pat, rep)` (all occurrences, left to right,
non-overlapping). -/
def replaceAll (s pat rep : String) : String :=
  String.mk (replAllGo pat.data rep.data s.data.length s.data)

/-- Model of Python `s[:n]` (first `n` code points). -/
def takeStr (s : String) (n : Nat) : String := String.mk (s.data.take n)

/-- Model of Python `len(s)` (number of code points). -/
def strLen (s : String) : Nat := s.data.length

/-- Join char lists with a separator. -/
def interGo (sep : List Char) : List (List Char) → List Char
  | [] => []
  | [x] => x
  | x :: y :: t => x ++ sep ++ interGo sep (y :: t)

/-- Model of Python `sep.join(parts)`. -/
def joinSep (sep : String) (parts : List String) : String :=
  String.mk (interGo sep.data (parts.map String.data))

/-! ### Data model -/

/-- Document metadata mapping; each field models an optional dict key. -/
structure Meta where
  grant_group : Option String
  filename : Option String
  source : Option String
  page_number : Option String
  page : Option String
  chunk_index : Option Int
deriving DecidableEq, Repr

/-- A normalized Document Record as stored in `retrieved_documents`:
`{"content": ..., "metadata": ...}`, plus the optional top-level
`similarity_score` key read (with default 0.0) by the source tracker. -/
structure DocD where
  content : String
  metadata : Meta
  similarity_score : Option Rat
deriving DecidableEq, Repr

/-- A raw search hit from the vector backend (a langchain `Document`). -/
structure SDoc where
  page_content : String
  metadata : Meta
deriving DecidableEq, Repr

/-- Conversion done by the retriever:
`{"content": doc.page_content, "metadata": doc.metadata}` (no
`similarity_score` key is ever written). -/
def toDict (d : SDoc) : DocD :=
  { content := d.page_content, metadata := d.metadata,
    similarity_score := none }

/-- A Citation Record as produced by `SourceTrackerAgent._extract_sources`. -/
structure Citation where
  clean_source : String
  page : String
  source_path : String
  chunk_index : Int
  similarity_score : Rat
  content : String
deriving DecidableEq, Repr

/-- Result of `_perform_cross_grant_comparison`: one constructor per shape
of dict the Python function can return (`comparison_type` is the tag). -/
inductive CompResult where
  | singleGrant (analysis : String)
  | crossGrant (analysis : String) (grants_compared : List String)
      (total_documents : Nat)
  | errorTagged (analysis : String) (grants_compared : List String)
deriving DecidableEq, Repr

/-- Result of `_analyze_document_relationships`.  The
`reference_patterns` and `coverage_gaps` lists are created empty and never
filled by the source. -/
structure Relationships where
  document_types : List (String × Nat)
  common_themes : List (String × Nat)
deriving DecidableEq, Repr

/-- The `cross_document_analysis` value on the state: absent (or the empty
dict), the degraded `{"analysis": msg}` dict, or the full analysis dict. -/
inductive CrossAnal where
  | noneYet
  | minimalA (analysis : String)
  | fullA (grant_groups : List (String × Nat))
      (relationships : Relationships) (comparison : CompResult)
      (synthesized_answer : String) (total_grants_analyzed : Nat)
      (cross_document_insights : Nat)
deriving DecidableEq, Repr

/-- The shared mutable request state threaded through the pipeline. -/
structure PState where
  query : String
  detected_language : String
  retrieved_documents : List DocD
  grant_types_detected : List String
  cross_document_analysis : CrossAnal
  qa_response : String
  sources : List Citation
  cited_response : String
  retrieval_performed : Bool
  cross_document_performed : Bool
  qa_performed : Bool
  source_tracking_performed : Bool
deriving DecidableEq, Repr

/-! ### Generic first-occurrence deduplication

Both the multi-search merge and the source tracker deduplicate a list by a
key, keeping the first occurrence, threading a `seen` set (modelled as a
list used only through membership). -/

/-- Keep the first occurrence of each key not already in `seen`. -/
def dedupBy {α β : Type} (key : α → β) [DecidableEq β] :
    List α → List β → List α
  | [], _ => []
  | a :: t, seen =>
    if key a ∈ seen then dedupBy key t seen
    else a :: dedupBy key t (key a :: seen)

/-- The `seen` set after processing a list. -/
def seenAfter {α β : Type} (key : α → β) [DecidableEq β] :
    List α → List β → List β
  | [], seen => seen
  | a :: t, seen =>
    if key a ∈ seen then seenAfter key t seen
    else seenAfter key t (key a :: seen)

theorem dedupBy_sublist {α β : Type} (key : α → β) [DecidableEq β] :
    ∀ (l : List α) (seen : List β), (dedupBy key l seen).Sublist l := by
  intro l
  induction l with
  | nil => intro seen; simp [dedupBy]
  | cons a t ih =>
    intro seen
    by_cases h : key a ∈ seen
    · simpa [dedupBy, h] using List.Sublist.cons a (ih seen)
    · simpa [dedupBy, h] using List.Sublist.cons₂ a (ih (key a :: seen))

theorem dedupBy_key_not_seen {α β : Type} (key : α → β) [DecidableEq β] :
    ∀ (l : List α) (seen : List β) (a : α),
      a ∈ dedupBy key l seen → key a ∉ seen := by
  intro l
  induction l with
  | nil => intro seen a h; simp [dedupBy] at h
  | cons b t ih =>
    intro seen a h
    by_cases hb : key b ∈ seen
    · exact ih seen a (by simpa [dedupBy, hb] using h)
    · rw [dedupBy, if_neg hb] at h
      rcases List.mem_cons.mp h with h | h
      · subst h; exact hb
      · intro hc
        exact (ih _ a h) (List.mem_cons_of_mem _ hc)

theorem dedupBy_pairwise {α β : Type} (key : α → β) [DecidableEq β] :
    ∀ (l : List α) (seen : List β),
      (dedupBy key l seen).Pairwise (fun a b => key a ≠ key b) := by
  intro l
  induction l with
  | nil => intro seen; simp [dedupBy]
  | cons a t ih =>
    intro seen
    by_cases h : key a ∈ seen
    · simpa [dedupBy, h] using ih seen
    · rw [dedupBy, if_neg h]
      refine List.Pairwise.cons ?_ (ih (key a :: seen))
      intro b hb hkey
      exact (dedupBy_key_not_seen key t _ b hb) (by simp [hkey])

theorem dedupBy_covers {α β : Type} (key : α → β) [DecidableEq β] :
    ∀ (l : List α) (seen : List β) (a : α), a ∈ l →
      key a ∈ seen ∨ ∃ b ∈ dedupBy key l seen, key b = key a := by
  intro l
  induction l with
  | nil => intro seen a h; simp at h
  | cons c t ih =>
    intro seen a h
    rcases List.mem_cons.mp h with h | h
    · subst h
      by_cases hc : key a ∈ seen
      · exact Or.inl hc
      · exact Or.inr ⟨a, by simp [dedupBy, hc], rfl⟩
    · by_cases hc : key c ∈ seen
      · rcases ih seen a h with hs | ⟨b, hb, hk⟩
        · exact Or.inl hs
        · exact Or.inr ⟨b, by simpa [dedupBy, hc] using hb, hk⟩
      · rcases ih (key c :: seen) a h with hs | ⟨b, hb, hk⟩
        · rcases List.mem_cons.mp hs with hs | hs
          · exact Or.inr ⟨c, by simp [dedupBy, hc], hs.symm⟩
          · exact Or.inl hs
        · exact Or.inr ⟨b, by simp [dedupBy, hc, hb], hk⟩

theorem seenAfter_mem {α β : Type} (key : α → β) [DecidableEq β] :
    ∀ (l : List α) (seen : List β) (b : β),
      b ∈ seenAfter key l seen ↔ b ∈ seen ∨ ∃ a ∈ l, key a = b := by
  intro l
  induction l with
  | nil => intro seen b; simp [seenAfter]
  | cons c t ih =>
    intro seen b
    by_cases hc : key c ∈ seen
    · rw [seenAfter, if_pos hc, ih]
      constructor
      · rintro (h | h)
        · exact Or.inl h
        · exact Or.inr (by rcases h with ⟨a, ha, hk⟩; exact ⟨a, by simp [ha], hk⟩)
      · rintro (h | ⟨a, ha, hk⟩)
        · exact Or.inl h
        · rcases List.mem_cons.mp ha with ha | ha
          · subst ha; subst hk; exact Or.inl hc
          · exact Or.inr ⟨a, ha, hk⟩
    · rw [seenAfter, if_neg hc, ih]
      constructor
      · rintro (h | h)
        · rcases List.mem_cons.mp h with h | h
          · exact Or.inr ⟨c, by simp, h.symm⟩
          · exact Or.inl h
        · exact Or.inr (by rcases h with ⟨a, ha, hk⟩; exact ⟨a, by simp [ha], hk⟩)
      · rintro (h | ⟨a, ha, hk⟩)
        · exact Or.inl (by simp [h])
        · rcases List.mem_cons.mp ha with ha | ha
          · subst ha; exact Or.inl (by simp [hk])
          · exact Or.inr ⟨a, ha, hk⟩

theorem dedupBy_append {α β : Type} (key : α → β) [DecidableEq β] :
    ∀ (l₁ l₂ : List α) (seen : List β),
      dedupBy key (l₁ ++ l₂) seen =
        dedupBy key l₁ seen ++ dedupBy key l₂ (seenAfter key l₁ seen) := by
  intro l₁
  induction l₁ with
  | nil => intro l₂ seen; simp [dedupBy, seenAfter]
  | cons a t ih =>
    intro l₂ seen
    by_cases h : key a ∈ seen
    · simp [dedupBy, seenAfter, h, ih]
    · simp [dedupBy, seenAfter, h, ih]

theorem dedupBy_map {α α' β : Type} (g : α → α') (key : α' → β)
    [DecidableEq β] :
    ∀ (l : List α) (seen : List β),
      dedupBy key (l.map g) seen =
        (dedupBy (fun a => key (g a)) l seen).map g := by
  intro l
  induction l with
  | nil => intro seen; simp [dedupBy]
  | cons a t ih =>
    intro seen
    by_cases h : key (g a) ∈ seen
    · simp [dedupBy, h, ih]
    · simp [dedupBy, h, ih]

/-! ### Language detection (DocumentRetrieverAgent._detect_language) -/

/-- Keyword list for Turkish, from `_detect_language`. -/
def turkishIndicators : List String :=
  ["nedir", "nelerdir", "nasıl", "ne", "hangi", "için", "ile", "bir", "bu",
   "şu", "mı", "mi", "mu", "mü", "da", "de", "ta", "te", "la", "le", "ın",
   "in", "un", "ün", "hibe", "başvuru", "proje", "belgeler", "kriterler",
   "süreç"]

/-- Keyword list for English, from `_detect_language`. -/
def englishIndicators : List String :=
  ["what", "how", "which", "where", "when", "why", "is", "are", "the",
   "and", "or", "in", "on", "at", "for", "with", "by", "from", "to", "of",
   "grant", "application", "project", "documents", "criteria", "process",
   "requirements", "eligibility", "personnel", "costs", "budget", "funding",
   "can", "should", "must", "will", "this", "that", "these", "those", "do",
   "does", "did", "have", "has", "had"]

/-- Keyword list for Italian, from `_detect_language`. -/
def italianIndicators : List String :=
  ["che", "cosa", "come", "quale", "dove", "quando", "perché", "è", "sono",
   "il", "la", "di", "a", "da", "in", "con", "su", "per", "tra", "fra",
   "sovvenzioni", "domanda", "progetto", "documenti", "criteri", "processo"]

/-- The whitespace tokens of the lowercased query. -/
def langWords (t : String) : List String := pySplit (lowerStr t)

/-- Number of tokens exactly matching the Turkish keyword list. -/
def trScore (t : String) : Nat :=
  (langWords t).countP (fun w => turkishIndicators.contains w)

/-- Number of tokens exactly matching the English keyword list. -/
def enScore (t : String) : Nat :=
  (langWords t).countP (fun w => englishIndicators.contains w)

/-- Number of tokens exactly matching the Italian keyword list. -/
def itScore (t : String) : Nat :=
  (langWords t).countP (fun w => italianIndicators.contains w)

/-- Model of `DocumentRetrieverAgent._detect_language`. -/
def detectLanguage (t : String) : String :=
  if trScore t ≥ enScore t ∧ trScore t ≥ itScore t then "turkish"
  else if enScore t ≥ itScore t then "english"
  else "italian"

/-! ### Relevance filter (DocumentRetrieverAgent._is_query_relevant) -/

/-- Turkish small-talk phrases, from `_is_query_relevant`. -/
def irrelevantPatternsTr : List String :=
  ["merhaba", "hey", "selam", "nasılsın", "nasıl gidiyor", "günaydın",
   "iyi akşamlar", "teşekkürler", "sağol", "hoşça kal", "görüşürüz",
   "naber", "ne var ne yok"]

/-- English small-talk phrases, from `_is_query_relevant`. -/
def irrelevantPatternsEn : List String :=
  ["hello", "hi", "hey", "how are you", "how is it going", "good morning",
   "good evening", "thank you", "thanks", "goodbye", "see you",
   "what\x27s up", "how\x27s life"]

/-- Turkish grant keywords, from `_is_query_relevant`. -/
def grantKeywordsTr : List String :=
  ["grant", "hibe", "amif", "proje", "başvuru", "finansman", "bütçe",
   "maliyet", "personel", "eligibility", "uygunluk", "criteria", "kriter",
   "application", "document", "belge"]

/-- English grant keywords, from `_is_query_relevant`. -/
def grantKeywordsEn : List String :=
  ["grant", "amif", "project", "application", "funding", "budget", "cost",
   "personnel", "eligibility", "criteria", "documentation", "requirement",
   "guideline", "procedure"]

/-- Model of `DocumentRetrieverAgent._is_query_relevant`. -/
def isQueryRelevant (query language : String) : Bool :=
  let queryLower := trimStr (lowerStr query)
  let patterns :=
    if language = "tr" then irrelevantPatternsTr else irrelevantPatternsEn
  let words := pySplit queryLower
  if decide (words.length < 3)
      && patterns.any (fun p => hasSubstr p queryLower) then false
  else if (grantKeywordsTr ++ grantKeywordsEn).any
      (fun k => hasSubstr k queryLower) then true
  else if words.length < 5 then false
  else decide (5 ≤ words.length)

/-! ### Theorems for language detection (C7) and relevance independence
(C10) -/

/-- Claim C7: `_detect_language` tokenizes on whitespace, counts exact
keyword matches per language, and returns a language whose count is
maximal, with ties resolved Turkish over English over Italian; an empty
query yields Turkish.  (The embedding is a pure Lean function, so
determinism and absence of external calls hold by construction.) -/
theorem language_detection_tie_break (t : String) :
    (detectLanguage t = "turkish" ∨ detectLanguage t = "english" ∨
      detectLanguage t = "italian")
    ∧ (detectLanguage t = "turkish" →
        enScore t ≤ trScore t ∧ itScore t ≤ trScore t)
    ∧ (detectLanguage t = "english" →
        trScore t ≤ enScore t ∧ itScore t ≤ enScore t)
    ∧ (detectLanguage t = "italian" →
        trScore t ≤ itScore t ∧ enScore t ≤ itScore t)
    ∧ (trScore t = enScore t → itScore t ≤ trScore t →
        detectLanguage t = "turkish")
    ∧ (trScore t = itScore t → enScore t ≤ trScore t →
        detectLanguage t = "turkish")
    ∧ (enScore t = itScore t → trScore t < enScore t →
        detectLanguage t = "english")
    ∧ detectLanguage "" = "turkish" := by
  refine ⟨?_, ?_, ?_, ?_, ?_, ?_, ?_, by decide⟩ <;>
    unfold detectLanguage <;>
    split_ifs with h1 h2 <;>
    first
      | (intro hA hB; first | rfl | omega)
      | (intro hA; first | exact absurd hA (by decide) | rfl | omega)
      | simp

/-- Witness for C7 at a concrete input: the empty query has all three
scores equal to zero, and the Turkish-over-English tie-break fires. -/
theorem language_detection_tie_break_witness :
    detectLanguage "" = "turkish" :=
  (language_detection_tie_break "").2.2.2.2.1 (by decide) (by decide)

/-- Claim C10: the relevance decision is independent of the detected
language.  `_is_query_relevant` selects the Turkish small-talk list only
when its `language` argument is the literal `"tr"`, but `_detect_language`
only ever returns `"turkish"`, `"english"` or `"italian"`, so the English
list is used for every detected language and the decision coincides with
the one for `"english"`. -/
theorem relevance_language_independent (q p₁ p₂ : String) :
    detectLanguage p₁ ≠ "tr"
    ∧ isQueryRelevant q (detectLanguage p₁) =
        isQueryRelevant q (detectLanguage p₂)
    ∧ isQueryRelevant q (detectLanguage p₁) = isQueryRelevant q "english" := by
  have hne : ∀ p : String, detectLanguage p ≠ "tr" := by
    intro p
    unfold detectLanguage
    split_ifs <;> decide
  have heq : ∀ l : String, l ≠ "tr" →
      isQueryRelevant q l = isQueryRelevant q "english" := by
    intro l hl
    unfold isQueryRelevant
    rw [if_neg hl, if_neg (by decide : ¬ ("english" : String) = "tr")]
  exact ⟨hne p₁, by rw [heq _ (hne p₁), heq _ (hne p₂)], heq _ (hne p₁)⟩

/-- Witness for C10 at concrete queries: the relevance decision agrees
between a Turkish-detected and an English-detected language value. -/
theorem relevance_language_independent_witness :
    isQueryRelevant "hello" (detectLanguage "merhaba") =
      isQueryRelevant "hello" (detectLanguage "what") :=
  (relevance_language_independent "hello" "merhaba" "what").2.1

/-! ### Supervisor (SupervisorAgent.execute) -/

/-- The flag-inspection dispatch of `SupervisorAgent.execute`, over the
four completion flags read from the state. -/
def supNextB (retrieval cross qa tracking : Bool) : String :=
  if retrieval = false then "document_retriever"
  else if cross = false then "cross_document"
  else if qa = false then "qa_agent"
  else if tracking = false then "source_tracker"
  else "__end__"

/-- Model of `SupervisorAgent.execute`: read the four flags (default
false), dispatch on the first unset one. -/
def supervisorNext (st : PState) : String :=
  supNextB st.retrieval_performed st.cross_document_performed
    st.qa_performed st.source_tracking_performed

/-- Pipeline position of each dispatch target. -/
def agentRank (a : String) : Nat :=
  if a = "document_retriever" then 0
  else if a = "cross_document" then 1
  else if a = "qa_agent" then 2
  else if a = "source_tracker" then 3
  else 4

theorem supNextB_mono : ∀ r c q s r' c' q' s' : Bool,
    (r = true → r' = true) → (c = true → c' = true) →
    (q = true → q' = true) → (s = true → s' = true) →
    agentRank (supNextB r c q s) ≤ agentRank (supNextB r' c' q' s') := by
  decide

/-- Claim C2: the supervisor inspects the completion flags in the fixed
priority order retrieval, cross-document, qa, source-tracking, routes to
the first component whose flag is false, terminates when all four are
true, and (consequently) routing is monotone in the flags: as flags are
set, the dispatch target only moves forward in the pipeline order. -/
theorem supervisor_dispatch_order (st : PState) :
    (st.retrieval_performed = false → supervisorNext st = "document_retriever")
    ∧ (st.retrieval_performed = true → st.cross_document_performed = false →
        supervisorNext st = "cross_document")
    ∧ (st.retrieval_performed = true → st.cross_document_performed = true →
        st.qa_performed = false → supervisorNext st = "qa_agent")
    ∧ (st.retrieval_performed = true → st.cross_document_performed = true →
        st.qa_performed = true → st.source_tracking_performed = false →
        supervisorNext st = "source_tracker")
    ∧ (st.retrieval_performed = true → st.cross_document_performed = true →
        st.qa_performed = true → st.source_tracking_performed = true →
        supervisorNext st = "__end__")
    ∧ (∀ st₂ : PState,
        (st.retrieval_performed = true → st₂.retrieval_performed = true) →
        (st.cross_document_performed = true →
          st₂.cross_document_performed = true) →
        (st.qa_performed = true → st₂.qa_performed = true) →
        (st.source_tracking_performed = true →
          st₂.source_tracking_performed = true) →
        agentRank (supervisorNext st) ≤ agentRank (supervisorNext st₂)) := by
  refine ⟨?_, ?_, ?_, ?_, ?_, ?_⟩
  · intro h; simp [supervisorNext, supNextB, h]
  · intro h1 h2; simp [supervisorNext, supNextB, h1, h2]
  · intro h1 h2 h3; simp [supervisorNext, supNextB, h1, h2, h3]
  · intro h1 h2 h3 h4; simp [supervisorNext, supNextB, h1, h2, h3, h4]
  · intro h1 h2 h3 h4; simp [supervisorNext, supNextB, h1, h2, h3, h4]
  · intro st₂ h1 h2 h3 h4
    exact supNextB_mono _ _ _ _ _ _ _ _ h1 h2 h3 h4

/-- A fresh request state: empty fields, all completion flags false. -/
def emptyState : PState :=
  { query := "", detected_language := "", retrieved_documents := [],
    grant_types_detected := [], cross_document_analysis := .noneYet,
    qa_response := "", sources := [], cited_response := "",
    retrieval_performed := false, cross_document_performed := false,
    qa_performed := false, source_tracking_performed := false }

/-- Witness for C2: on a fresh state the supervisor routes to the
retriever. -/
theorem supervisor_dispatch_order_witness :
    supervisorNext emptyState = "document_retriever" :=
  (supervisor_dispatch_order emptyState).1 rfl

/-! ### Source tracker (SourceTrackerAgent) -/

/-- Clean source label: strip the `data/raw/` prefix and `.pdf` extension
from the `source` metadata path, falling back to `filename` (default
`"Bilinmeyen"`) when the stripped value is empty. -/
def cleanSourceOf (m : Meta) : String :=
  let sp := m.source.getD ""
  let c := replaceAll (replaceAll sp "data/raw/" "") ".pdf" ""
  if c = "" then m.filename.getD "Bilinmeyen" else c

/-- Page value: `metadata.get("page_number", metadata.get("page", ""))`. -/
def pageNumOf (m : Meta) : String := m.page_number.getD (m.page.getD "")

/-- The deduplication key `(clean_source, page_number)`. -/
def citKeyOf (d : DocD) : String × String :=
  (cleanSourceOf d.metadata, pageNumOf d.metadata)

/-- The Citation Record built for one document in `_extract_sources`. -/
def mkCitation (d : DocD) : Citation :=
  { clean_source := cleanSourceOf d.metadata,
    page :=
      if pageNumOf d.metadata ≠ "" then "Sayfa " ++ pageNumOf d.metadata
      else "Sayfa bilinmiyor",
    source_path := d.metadata.source.getD "",
    chunk_index := d.metadata.chunk_index.getD 0,
    similarity_score := d.similarity_score.getD 0,
    content := takeStr d.content 100 ++ "..." }

/-- The loop of `SourceTrackerAgent._extract_sources`, threading the
`seen_sources` set. -/
def extractSourcesGo : List DocD → List (String × String) → List Citation
  | [], _ => []
  | d :: t, seen =>
    if citKeyOf d ∈ seen then extractSourcesGo t seen
    else mkCitation d :: extractSourcesGo t (citKeyOf d :: seen)

/-- Model of `SourceTrackerAgent._extract_sources`. -/
def extractSources (docs : List DocD) : List Citation :=
  extractSourcesGo docs []

/-- Model of `SourceTrackerAgent._add_citations`: returns the response
unchanged (citations are surfaced as a separate list). -/
def addCitations (response : String) (_sources : List Citation) : String :=
  response

/-- Model of `SourceTrackerAgent.execute`. -/
def sourceTrackerExecute (st : PState) : PState :=
  let docs := st.retrieved_documents
  let qa := st.qa_response
  let st1 := { st with source_tracking_performed := true }
  if docs = [] then { st1 with sources := [], cited_response := qa }
  else
    let srcs := extractSources docs
    { st1 with sources := srcs, cited_response := addCitations qa srcs }

theorem extractSourcesGo_eq_dedup (docs : List DocD)
    (seen : List (String × String)) :
    extractSourcesGo docs seen =
      (dedupBy citKeyOf docs seen).map mkCitation := by
  induction docs generalizing seen with
  | nil => simp [extractSourcesGo, dedupBy]
  | cons d t ih =>
    by_cases h : citKeyOf d ∈ seen
    · simp [extractSourcesGo, dedupBy, h, ih]
    · simp [extractSourcesGo, dedupBy, h, ih]

/-- Claim C4: the source tracker's citation list never contains two
records sharing the key `(clean_source, page_number)`, keeps the first
occurrence of each key preserving input order (the output is the image of
a key-distinct sublist of the input that covers every input key), has
length at most the input length, and the tracker is idempotent as a state
transformer. -/
theorem citation_dedup_properties (docs : List DocD) (st : PState) :
    extractSources docs = (dedupBy citKeyOf docs []).map mkCitation
    ∧ (dedupBy citKeyOf docs []).Pairwise
        (fun a b => citKeyOf a ≠ citKeyOf b)
    ∧ (dedupBy citKeyOf docs []).Sublist docs
    ∧ (∀ d ∈ docs, ∃ p ∈ dedupBy citKeyOf docs [], citKeyOf p = citKeyOf d)
    ∧ (extractSources docs).length ≤ docs.length
    ∧ sourceTrackerExecute (sourceTrackerExecute st) =
        sourceTrackerExecute st := by
  refine ⟨extractSourcesGo_eq_dedup docs [], dedupBy_pairwise citKeyOf docs [],
    dedupBy_sublist citKeyOf docs [], ?_, ?_, ?_⟩
  · intro d hd
    rcases dedupBy_covers citKeyOf docs [] d hd with hs | h
    · simp at hs
    · exact h
  · rw [extractSources, extractSourcesGo_eq_dedup docs [], List.length_map]
    exact (dedupBy_sublist citKeyOf docs []).length_le
  · by_cases h : st.retrieved_documents = [] <;>
      simp [sourceTrackerExecute, addCitations, h]

/-- A concrete metadata record used by witnesses. -/
def metaW : Meta :=
  { grant_group := none, filename := some "f.pdf",
    source := some "data/raw/f.pdf", page_number := some "2", page := none,
    chunk_index := some 1 }

/-- A concrete document record used by witnesses. -/
def docW : DocD :=
  { content := "budget information", metadata := metaW,
    similarity_score := none }

/-- Witness for C4: on a list with a duplicated `(source, page)` pair the
key of the first document is covered by the deduplicated list, and the
output is not longer than the input. -/
theorem citation_dedup_properties_witness :
    (∃ p ∈ dedupBy citKeyOf [docW, docW] [], citKeyOf p = citKeyOf docW)
    ∧ (extractSources [docW, docW]).length ≤
        ([docW, docW] : List DocD).length :=
  ⟨(citation_dedup_properties [docW, docW] emptyState).2.2.2.1 docW
      (by decide),
    (citation_dedup_properties [docW, docW] emptyState).2.2.2.2.1⟩

/-- Claim C9: the source tracker always sets its completion flag, writes
`cited_response` equal to the incoming `qa_response` unchanged, and yields
an empty `sources` list on an empty document list. -/
theorem source_tracker_passthrough (st : PState) :
    (sourceTrackerExecute st).source_tracking_performed = true
    ∧ (sourceTrackerExecute st).cited_response = st.qa_response
    ∧ (st.retrieved_documents = [] →
        (sourceTrackerExecute st).sources = []) := by
  by_cases h : st.retrieved_documents = [] <;>
    simp [sourceTrackerExecute, addCitations, h]

/-- Witness for C9: a state with no retrieved documents yields an empty
citation list. -/
theorem source_tracker_passthrough_witness :
    (sourceTrackerExecute emptyState).sources = [] :=
  (source_tracker_passthrough emptyState).2.2 rfl

/-! ### Retriever (DocumentRetrieverAgent) -/

/-- The category→keyword table of `_extract_grant_types_from_query`. -/
def grantMappings : List (String × List String) :=
  [("women", ["women", "woman", "kadın", "kadınlar", "female", "gender"]),
   ("children", ["children", "child", "çocuk", "çocuklar", "youth",
     "minors"]),
   ("health", ["health", "sağlık", "healthcare", "medical", "tıbbi"]),
   ("digital", ["digital", "dijital", "technology", "teknoloji", "online"]),
   ("pathways", ["pathways", "education", "eğitim", "training", "öğretim"])]

/-- Model of `_extract_grant_types_from_query`: collect, in table order,
every category one of whose keywords occurs in the lowercased query. -/
def extractGrantTypes (query : String) : List String :=
  let ql := lowerStr query
  (grantMappings.filter (fun m => m.2.any (fun k => hasSubstr k ql))).map
    Prod.fst

/-- The category-specific expanded search strings of
`_perform_multi_search`. -/
def searchTerms : List (String × String) :=
  [("women", "AMIF-2025 WOMEN grant eligibility criteria budget"),
   ("children", "AMIF-2025 CHILDREN grant eligibility criteria budget"),
   ("health", "AMIF-2025 HEALTH grant eligibility criteria budget"),
   ("digital", "AMIF-2025 DIGITAL grant eligibility criteria budget"),
   ("pathways", "AMIF-2025 PATHWAYS grant eligibility criteria budget")]

/-- `search_terms.get(grant_type, f"AMIF-2025 {grant_type.upper()}")`. -/
def searchTermFor (t : String) : String :=
  (searchTerms.lookup t).getD ("AMIF-2025 " ++ upperStr t)

/-- The `source` identity key of a raw search hit. -/
def sKeyS (d : SDoc) : String := d.metadata.source.getD ""

/-- The `source` identity key of a Document Record. -/
def sKeyD (d : DocD) : String := d.metadata.source.getD ""

/-- One step of the merge loop of `_perform_multi_search`: append the
document unless its source key was already seen. -/
def multiStep (acc : List DocD × List String) (doc : SDoc) :
    List DocD × List String :=
  let s := sKeyS doc
  if s ∈ acc.2 then acc else (acc.1 ++ [toDict doc], s :: acc.2)

/-- The per-grant-type search loop of `_perform_multi_search`; a backend
exception aborts the whole call. -/
def multiLoop (search : String → Nat → Except String (List SDoc)) :
    List String → List DocD × List String →
    Except String (List DocD × List String)
  | [], acc => .ok acc
  | t :: ts, acc =>
    match search (searchTermFor t) 4 with
    | .error e => .error e
    | .ok rs => multiLoop search ts (rs.foldl multiStep acc)

/-- Model of `DocumentRetrieverAgent._perform_multi_search`. -/
def performMultiSearch (search : String → Nat → Except String (List SDoc))
    (query : String) (grantTypes : List String) :
    Except String (List DocD) :=
  match search query 6 with
  | .error e => .error e
  | .ok main =>
    match multiLoop search grantTypes (main.foldl multiStep ([], [])) with
    | .error e => .error e
    | .ok acc => .ok acc.1

/-- The document-search portion of `DocumentRetrieverAgent.execute`
(the body of its `try` block): multi-search when at least two grant
categories are detected, otherwise one raw search with k = 8. -/
def retrieveDocs (search : String → Nat → Except String (List SDoc))
    (query : String) : Except String (List DocD) :=
  let gts := extractGrantTypes query
  if 2 ≤ gts.length then performMultiSearch search query gts
  else
    match search query 8 with
    | .error e => .error e
    | .ok ds => .ok (ds.map toDict)

/-- Model of `DocumentRetrieverAgent.execute`: empty-query early return,
language detection, relevance gate, then the searches with the backend
exception caught and converted to an empty result. -/
def retrieverExecute (search : String → Nat → Except String (List SDoc))
    (st : PState) : PState :=
  if st.query = "" then
    { st with
      retrieved_documents := []
      retrieval_performed := true
      detected_language := "tr" }
  else if isQueryRelevant st.query (detectLanguage st.query) = false then
    { st with
      detected_language := detectLanguage st.query
      retrieved_documents := []
      retrieval_performed := true }
  else
    match retrieveDocs search st.query with
    | .ok docs =>
      { st with
        detected_language := detectLanguage st.query
        retrieved_documents := docs
        retrieval_performed := true
        grant_types_detected := extractGrantTypes st.query }
    | .error _ =>
      { st with
        detected_language := detectLanguage st.query
        retrieved_documents := []
        retrieval_performed := true }

/-! #### Merge-loop structure lemmas -/

theorem seenAfter_append {α β : Type} (key : α → β) [DecidableEq β] :
    ∀ (l₁ l₂ : List α) (seen : List β),
      seenAfter key (l₁ ++ l₂) seen =
        seenAfter key l₂ (seenAfter key l₁ seen) := by
  intro l₁
  induction l₁ with
  | nil => intro l₂ seen; simp [seenAfter]
  | cons a t ih =>
    intro l₂ seen
    by_cases h : key a ∈ seen <;> simp [seenAfter, h, ih]

theorem foldl_multiStep (docs : List SDoc) (out : List DocD)
    (seen : List String) :
    docs.foldl multiStep (out, seen) =
      (out ++ (dedupBy sKeyS docs seen).map toDict,
        seenAfter sKeyS docs seen) := by
  induction docs generalizing out seen with
  | nil => simp [dedupBy, seenAfter]
  | cons d t ih =>
    by_cases h : sKeyS d ∈ seen
    · simp [multiStep, h, dedupBy, seenAfter, ih]
    · simp [multiStep, h, dedupBy, seenAfter, ih]

theorem foldl_multiStep_lists (ls : List (List SDoc)) (out : List DocD)
    (seen : List String) :
    ls.foldl (fun a l => l.foldl multiStep a) (out, seen) =
      (out ++ (dedupBy sKeyS ls.flatten seen).map toDict,
        seenAfter sKeyS ls.flatten seen) := by
  induction ls generalizing out seen with
  | nil => simp [dedupBy, seenAfter]
  | cons l t ih =>
    simp only [List.foldl_cons, List.flatten_cons]
    rw [foldl_multiStep l out seen, ih, dedupBy_append, seenAfter_append,
      List.map_append, List.append_assoc]

/-- A backend that always succeeds, given by a pure result function. -/
def okS (f : String → Nat → List SDoc) :
    String → Nat → Except String (List SDoc) :=
  fun q k => .ok (f q k)

theorem multiLoop_okS (f : String → Nat → List SDoc) :
    ∀ (gts : List String) (acc : List DocD × List String),
      multiLoop (okS f) gts acc =
        .ok (gts.foldl (fun a t => (f (searchTermFor t) 4).foldl multiStep a)
          acc) := by
  intro gts
  induction gts with
  | nil => intro acc; rfl
  | cons t ts ih => intro acc; simp [multiLoop, okS, ih]

theorem performMultiSearch_okS (f : String → Nat → List SDoc) (q : String)
    (gts : List String) :
    performMultiSearch (okS f) q gts =
      .ok ((dedupBy sKeyS
        (f q 6 ++ (gts.map (fun t => f (searchTermFor t) 4)).flatten)
        []).map toDict) := by
  show (match multiLoop (okS f) gts ((f q 6).foldl multiStep ([], [])) with
    | Except.error e => Except.error e
    | Except.ok acc => Except.ok acc.1) = _
  rw [multiLoop_okS, ← List.foldl_map (fun t => f (searchTermFor t) 4)
    (fun a l => l.foldl multiStep a) gts, foldl_multiStep,
    foldl_multiStep_lists, dedupBy_append]
  simp

/-- Claim C3: with zero or one detected grant category the retriever
issues the single raw search with k = 8; with two or more it issues the
raw search with k = 6 plus one expanded search with k = 4 per category,
merged with first-seen deduplication by source key, so each source key
appears exactly once and documents found by the raw search keep the
positions the raw search gave them, with category-search extras appended
after. -/
theorem retriever_search_strategy (f : String → Nat → List SDoc)
    (q : String) :
    ((extractGrantTypes q).length < 2 →
      retrieveDocs (okS f) q = .ok ((f q 8).map toDict))
    ∧ (2 ≤ (extractGrantTypes q).length →
      retrieveDocs (okS f) q =
        .ok ((dedupBy sKeyS (f q 6 ++
          ((extractGrantTypes q).map
            (fun t => f (searchTermFor t) 4)).flatten) []).map toDict)
      ∧ ((dedupBy sKeyS (f q 6 ++
          ((extractGrantTypes q).map
            (fun t => f (searchTermFor t) 4)).flatten) []).map
            toDict).Pairwise (fun a b => sKeyD a ≠ sKeyD b)
      ∧ ∃ extra,
          (dedupBy sKeyS (f q 6 ++
            ((extractGrantTypes q).map
              (fun t => f (searchTermFor t) 4)).flatten) []).map toDict =
            (dedupBy sKeyS (f q 6) []).map toDict ++ extra
          ∧ ∀ x ∈ extra, sKeyD x ∉ (f q 6).map sKeyS) := by
  constructor
  · intro h
    rw [retrieveDocs]
    have : ¬ 2 ≤ (extractGrantTypes q).length := by omega
    rw [if_neg this]
    rfl
  · intro h
    refine ⟨?_, ?_, ?_⟩
    · rw [retrieveDocs, if_pos h, performMultiSearch_okS]
    · rw [List.pairwise_map]
      exact dedupBy_pairwise sKeyS _ []
    · refine ⟨(dedupBy sKeyS
        (((extractGrantTypes q).map
          (fun t => f (searchTermFor t) 4)).flatten)
        (seenAfter sKeyS (f q 6) [])).map toDict, ?_, ?_⟩
      · rw [dedupBy_append, List.map_append]
      · intro x hx
        rcases List.mem_map.mp hx with ⟨b, hb, hbx⟩
        have hns := dedupBy_key_not_seen sKeyS _ _ b hb
        rw [seenAfter_mem] at hns
        push_neg at hns
        intro hmem
        rcases List.mem_map.mp hmem with ⟨a, ha, hak⟩
        exact hns.2 a ha (by rw [hak, ← hbx]; rfl)

/-- Search-hit metadata used by witnesses. -/
def metaW2 : Meta :=
  { grant_group := none, filename := some "g.pdf",
    source := some "data/raw/g.pdf", page_number := none, page := none,
    chunk_index := none }

/-- A raw search hit used by witnesses. -/
def sdocW : SDoc := { page_content := "criteria text", metadata := metaW2 }

/-- A constant search backend used by witnesses. -/
def fW : String → Nat → List SDoc := fun _ _ => [sdocW, sdocW]

/-- Witness for C3: the query "women children" has two detected grant
categories, and the merged multi-search result deduplicates the repeated
source key. -/
theorem retriever_search_strategy_witness :
    retrieveDocs (okS fW) "women children" =
      .ok ((dedupBy sKeyS (fW "women children" 6 ++
        ((extractGrantTypes "women children").map
          (fun t => fW (searchTermFor t) 4)).flatten) []).map toDict) :=
  ((retriever_search_strategy fW "women children").2 (by decide)).1

theorem supNextB_true_ne (c q s : Bool) :
    supNextB true c q s ≠ "document_retriever" := by
  cases c <;> cases q <;> cases s <;> decide

/-- Claim C6: the retriever always marks retrieval performed; when the
search backend raises, the caught exception leaves an empty
`retrieved_documents`; and the supervisor therefore never routes back to
the retriever after it ran. -/
theorem retriever_failure_containment
    (search : String → Nat → Except String (List SDoc)) (st : PState)
    (e : String) :
    (retrieverExecute search st).retrieval_performed = true
    ∧ (retrieveDocs search st.query = .error e →
        (retrieverExecute search st).retrieved_documents = [])
    ∧ supervisorNext (retrieverExecute search st) ≠ "document_retriever" := by
  have hmain : (retrieverExecute search st).retrieval_performed = true
      ∧ (retrieveDocs search st.query = .error e →
        (retrieverExecute search st).retrieved_documents = []) := by
    unfold retrieverExecute
    by_cases hq : st.query = ""
    · simp [hq]
    · rw [if_neg hq]
      by_cases hr : isQueryRelevant st.query (detectLanguage st.query) = false
      · rw [if_pos hr]; simp
      · rw [if_neg hr]
        cases hds : retrieveDocs search st.query with
        | ok docs => simp [hds]
        | error err => simp
  refine ⟨hmain.1, hmain.2, ?_⟩
  rw [supervisorNext, hmain.1]
  exact supNextB_true_ne _ _ _

/-- A backend that always raises, used by witnesses. -/
def failSearch : String → Nat → Except String (List SDoc) :=
  fun _ _ => .error "down"

/-- A state with a relevant single-category query, used by witnesses. -/
def stW6 : PState := { emptyState with query := "grant budget" }

/-- Witness for C6: with a failing backend the retriever returns an empty
document list. -/
theorem retriever_failure_containment_witness :
    (retrieverExecute failSearch stW6).retrieved_documents = [] :=
  (retriever_failure_containment failSearch stW6 "down").2.1 rfl

/-! ### Grant grouping (CrossDocumentAgent._extract_grant_groups)

The filename patterns `AMIF-\d{4}-TF\d+-AG-[^_]+` and `AMIF-\d{4}-[^_]+`
are matched with `re.findall(..., IGNORECASE)` and the first (leftmost)
match is taken.  Each greedy element (`\d+`, `[^_]+`) is followed either
by a literal that no character of its class can start or by the end of
the pattern, so maximal-run matching agrees with backtracking regex
semantics and is used below. -/

/-- Consume a case-insensitive literal from the head, returning the rest. -/
def litRem : List Char → List Char → Option (List Char)
  | [], cs => some cs
  | _ :: _, [] => none
  | p :: ps, c :: cs => if lowCh c == lowCh p then litRem ps cs else none

/-- Consume exactly `n` digits (`\d{n}`). -/
def digitsN : Nat → List Char → Option (List Char)
  | 0, cs => some cs
  | _ + 1, [] => none
  | n + 1, c :: cs => if c.isDigit then digitsN n cs else none

/-- Consume a maximal nonempty digit run (`\d+`). -/
def digits1 (cs : List Char) : Option (List Char) :=
  let k := (cs.takeWhile Char.isDigit).length
  if k = 0 then none else some (cs.drop k)

/-- Consume a maximal nonempty run of non-underscore characters
(`[^_]+`). -/
def notUnderscore1 (cs : List Char) : Option (List Char) :=
  let k := (cs.takeWhile (fun c => c != '_')).length
  if k = 0 then none else some (cs.drop k)

/-- Match `AMIF-\d{4}-TF\d+-AG-[^_]+` at the head, returning the rest. -/
def matchPat1 (cs : List Char) : Option (List Char) :=
  (((((litRem "AMIF-".data cs).bind (digitsN 4)).bind
    (litRem "-TF".data)).bind digits1).bind
    (litRem "-AG-".data)).bind notUnderscore1

/-- Match `AMIF-\d{4}-[^_]+` at the head, returning the rest. -/
def matchPat2 (cs : List Char) : Option (List Char) :=
  (((litRem "AMIF-".data cs).bind (digitsN 4)).bind
    (litRem "-".data)).bind notUnderscore1

/-- Leftmost match: try the matcher at each position left to right and
return the consumed substring at the first position where it succeeds. -/
def scanFor (m : List Char → Option (List Char)) :
    List Char → Option (List Char)
  | [] =>
    match m [] with
    | some _ => some []
    | none => none
  | c :: cs =>
    match m (c :: cs) with
    | some rest => some ((c :: cs).take ((c :: cs).length - rest.length))
    | none => scanFor m cs

/-- Grant-id extraction from a filename: full pattern first, shorter
pattern second, result uppercased. -/
def grantIdFromFilename (fn : String) : Option String :=
  match scanFor matchPat1 fn.data with
  | some mc => some (String.mk (mc.map upCh))
  | none =>
    match scanFor matchPat2 fn.data with
    | some mc => some (String.mk (mc.map upCh))
    | none => none

/-- The known-grant keyword table of the content-scoring fallback. -/
def grantKeywordTable : List (String × List String) :=
  [("AMIF-2025-TF2-AG-INTE-01-WOMEN", ["WOMEN", "GENDER", "FEMALE"]),
   ("AMIF-2025-TF2-AG-INTE-05-CHILDREN",
     ["CHILDREN", "CHILD", "MINORS", "YOUTH"]),
   ("AMIF-2025-TF2-AG-INTE-02-HEALTH", ["HEALTH", "MEDICAL", "HEALTHCARE"]),
   ("AMIF-2025-TF2-AG-INTE-03-DIGITAL", ["DIGITAL", "TECHNOLOGY", "ONLINE"]),
   ("AMIF-2025-TF2-AG-INTE-04-PATHWAYS",
     ["PATHWAYS", "EDUCATION", "TRAINING"])]

/-- The content keyword-scoring fallback: the first table entry with
strictly maximal keyword-hit count against the uppercased content wins;
`UNKNOWN` when the best score is zero. -/
def contentKey (content : String) : String :=
  let c := upperStr content
  let best := grantKeywordTable.foldl
    (fun acc kv =>
      let score := kv.2.countP (fun k => hasSubstr k c)
      if acc.2 < score then (some kv.1, score) else acc)
    ((none : Option String), 0)
  match best with
  | (some g, s) => if 0 < s then g else "UNKNOWN"
  | (none, _) => "UNKNOWN"

/-- The per-document group key of `_extract_grant_groups`: metadata
`grant_group` when present and not the `unknown_grant` sentinel, else the
filename (or `source`) regex extraction, else the content keyword
fallback, else `UNKNOWN`. -/
def groupKeyOf (d : DocD) : String :=
  let m := d.metadata
  let gg := m.grant_group.getD ""
  if gg != "" && gg != "unknown_grant" then gg
  else
    let fn0 := m.filename.getD ""
    let fn := if fn0 != "" then fn0 else m.source.getD ""
    if fn = "" then "UNKNOWN"
    else
      match grantIdFromFilename fn with
      | some gid => gid
      | none => contentKey d.content

/-- Append a document to its group in an insertion-ordered association
list (the model of the `defaultdict(list)` accumulation). -/
def addToGroup (gs : List (String × List DocD)) (k : String) (d : DocD) :
    List (String × List DocD) :=
  match gs with
  | [] => [(k, [d])]
  | (k1, ds) :: rest =>
    if k1 = k then (k1, ds ++ [d]) :: rest
    else (k1, ds) :: addToGroup rest k d

/-- Model of `CrossDocumentAgent._extract_grant_groups`. -/
def extractGrantGroups (docs : List DocD) : List (String × List DocD) :=
  docs.foldl (fun gs d => addToGroup gs (groupKeyOf d) d) []

/-- Association-list lookup with the empty list as default. -/
def lookupG : List (String × List DocD) → String → List DocD
  | [], _ => []
  | (k1, ds) :: rest, k => if k1 = k then ds else lookupG rest k

theorem lookupG_addToGroup (gs : List (String × List DocD)) (k0 : String)
    (d : DocD) (k : String) :
    lookupG (addToGroup gs k0 d) k =
      if k = k0 then lookupG gs k ++ [d] else lookupG gs k := by
  induction gs with
  | nil =>
    simp only [addToGroup, lookupG]
    by_cases h : k0 = k
    · subst h; simp
    · rw [if_neg h, if_neg (fun hh => h hh.symm)]
  | cons p rest ih =>
    obtain ⟨k1, ds⟩ := p
    simp only [addToGroup]
    by_cases h1 : k1 = k0
    · subst h1
      rw [if_pos rfl]
      by_cases h2 : k1 = k
      · subst h2; simp [lookupG]
      · simp [lookupG, h2, Ne.symm h2]
    · rw [if_neg h1]
      by_cases h2 : k1 = k
      · subst h2
        simp [lookupG, h1]
      · simp [lookupG, h2, ih]

theorem keys_addToGroup (gs : List (String × List DocD)) (k0 : String)
    (d : DocD) :
    (addToGroup gs k0 d).map Prod.fst =
      if k0 ∈ gs.map Prod.fst then gs.map Prod.fst
      else gs.map Prod.fst ++ [k0] := by
  induction gs with
  | nil => simp [addToGroup]
  | cons p rest ih =>
    obtain ⟨k1, ds⟩ := p
    by_cases h1 : k1 = k0
    · subst h1; simp [addToGroup]
    · by_cases h2 : k0 ∈ rest.map Prod.fst
      · simp [addToGroup, h1, h2, ih, Ne.symm h1]
      · simp [addToGroup, h1, h2, ih, Ne.symm h1]

theorem nodup_addToGroup (gs : List (String × List DocD)) (k0 : String)
    (d : DocD) (h : (gs.map Prod.fst).Nodup) :
    ((addToGroup gs k0 d).map Prod.fst).Nodup := by
  rw [keys_addToGroup]
  split_ifs with hmem
  · exact h
  · rw [List.nodup_append]
    exact ⟨h, List.nodup_singleton k0,
      fun a ha hb => by simp at hb; subst hb; exact hmem ha⟩

theorem joinSnd_addToGroup (gs : List (String × List DocD)) (k0 : String)
    (d : DocD) :
    List.Perm (((addToGroup gs k0 d).map Prod.snd).flatten)
      ((gs.map Prod.snd).flatten ++ [d]) := by
  induction gs with
  | nil => simp [addToGroup]
  | cons p rest ih =>
    obtain ⟨k1, ds⟩ := p
    by_cases h1 : k1 = k0
    · subst h1
      have he : addToGroup ((k1, ds) :: rest) k1 d =
          (k1, ds ++ [d]) :: rest := by simp [addToGroup]
      rw [he]
      simp only [List.map_cons, List.flatten_cons]
      have h3 := List.Perm.append_left ds
        (@List.perm_append_comm DocD [d] ((rest.map Prod.snd).flatten))
      rw [← List.append_assoc, ← List.append_assoc] at h3
      exact h3
    · have he : addToGroup ((k1, ds) :: rest) k0 d =
          (k1, ds) :: addToGroup rest k0 d := by simp [addToGroup, h1]
      rw [he]
      simp only [List.map_cons, List.flatten_cons]
      have h3 := List.Perm.append_left ds ih
      rw [← List.append_assoc] at h3
      exact h3

theorem lookupG_fold (docs : List DocD) (gs : List (String × List DocD))
    (k : String) :
    lookupG (docs.foldl (fun g d => addToGroup g (groupKeyOf d) d) gs) k =
      lookupG gs k ++ docs.filter (fun d => groupKeyOf d == k) := by
  induction docs generalizing gs with
  | nil => simp
  | cons d t ih =>
    simp only [List.foldl_cons, List.filter_cons]
    rw [ih, lookupG_addToGroup]
    by_cases h : groupKeyOf d = k
    · rw [if_pos (h.symm), if_pos (by simp [h])]
      simp
    · rw [if_neg (fun hh => h hh.symm), if_neg (by simp [h])]

theorem nodup_fold (docs : List DocD) (gs : List (String × List DocD))
    (h : (gs.map Prod.fst).Nodup) :
    (((docs.foldl (fun g d => addToGroup g (groupKeyOf d) d) gs)).map
      Prod.fst).Nodup := by
  induction docs generalizing gs with
  | nil => exact h
  | cons d t ih =>
    simp only [List.foldl_cons]
    exact ih _ (nodup_addToGroup gs (groupKeyOf d) d h)

theorem perm_fold (docs : List DocD) (gs : List (String × List DocD)) :
    List.Perm
      (((docs.foldl (fun g d => addToGroup g (groupKeyOf d) d) gs)).map
        Prod.snd).flatten
      ((gs.map Prod.snd).flatten ++ docs) := by
  induction docs generalizing gs with
  | nil => simp
  | cons d t ih =>
    simp only [List.foldl_cons]
    have h3 := (ih (addToGroup gs (groupKeyOf d) d)).trans
      (List.Perm.append_right t (joinSnd_addToGroup gs (groupKeyOf d) d))
    have h4 : ((gs.map Prod.snd).flatten ++ [d]) ++ t =
        (gs.map Prod.snd).flatten ++ (d :: t) := by
      rw [List.append_assoc]; rfl
    exact h4 ▸ h3

theorem lookupG_of_mem (gs : List (String × List DocD))
    (h : (gs.map Prod.fst).Nodup) (p : String × List DocD) (hp : p ∈ gs) :
    lookupG gs p.1 = p.2 := by
  induction gs with
  | nil => cases hp
  | cons q rest ih =>
    obtain ⟨k1, ds⟩ := q
    rcases List.mem_cons.mp hp with rfl | hp
    · simp [lookupG]
    · have hk : ¬ k1 = p.1 := by
        intro he
        have h1 : k1 ∉ rest.map Prod.fst := (List.nodup_cons.mp h).1
        exact h1 (he ▸ List.mem_map_of_mem Prod.fst hp)
      simp only [lookupG, if_neg hk]
      exact ih (List.nodup_cons.mp h).2 hp

/-- Claim C1: `_extract_grant_groups` is a total partition of the input:
group keys are pairwise distinct, each group's member list is exactly the
input documents whose key is that group's key (in input order), the
groups' members jointly are a permutation of the input list, and every
input document lies in the (unique) group of its key. -/
theorem grouping_totality (docs : List DocD) :
    ((extractGrantGroups docs).map Prod.fst).Nodup
    ∧ (∀ p ∈ extractGrantGroups docs,
        p.2 = docs.filter (fun d => groupKeyOf d == p.1))
    ∧ List.Perm (((extractGrantGroups docs).map Prod.snd).flatten) docs
    ∧ (∀ d ∈ docs, ∃ p ∈ extractGrantGroups docs,
        p.1 = groupKeyOf d ∧ d ∈ p.2) := by
  have hnodup : ((extractGrantGroups docs).map Prod.fst).Nodup :=
    nodup_fold docs [] (by simp)
  have hlookup : ∀ k, lookupG (extractGrantGroups docs) k =
      docs.filter (fun d => groupKeyOf d == k) := by
    intro k
    rw [extractGrantGroups, lookupG_fold]
    rfl
  have hmem : ∀ p ∈ extractGrantGroups docs,
      p.2 = docs.filter (fun d => groupKeyOf d == p.1) := by
    intro p hp
    rw [← hlookup p.1, lookupG_of_mem _ hnodup p hp]
  have hperm : List.Perm (((extractGrantGroups docs).map Prod.snd).flatten)
      docs := by
    have := perm_fold docs []
    simpa using this
  refine ⟨hnodup, hmem, hperm, ?_⟩
  intro d hd
  have hd2 : d ∈ ((extractGrantGroups docs).map Prod.snd).flatten :=
    (hperm.mem_iff).mpr hd
  rcases List.mem_flatten.mp hd2 with ⟨l, hl, hdl⟩
  rcases List.mem_map.mp hl with ⟨p, hp, hpl⟩
  refine ⟨p, hp, ?_, hpl ▸ hdl⟩
  rw [← hpl] at hdl
  rw [hmem p hp] at hdl
  have hkey := List.of_mem_filter hdl
  exact (eq_of_beq hkey).symm

/-- A document whose metadata carries an explicit grant group, used by
witnesses. -/
def docW1 : DocD :=
  { content := "eligibility text",
    metadata :=
      { grant_group := some "AMIF-2025-TF2-AG-INTE-01-WOMEN",
        filename := some "AMIF-2025-TF2-AG-INTE-01-WOMEN_call-fiche.pdf",
        source := none, page_number := none, page := none,
        chunk_index := none },
    similarity_score := none }

/-- Witness for C1: a concrete document is assigned to the group of its
key. -/
theorem grouping_totality_witness :
    ∃ p ∈ extractGrantGroups [docW1],
      p.1 = groupKeyOf docW1 ∧ docW1 ∈ p.2 :=
  (grouping_totality [docW1]).2.2.2 docW1 (by decide)

/-! ### Cross-grant comparison and synthesis (CrossDocumentAgent) -/

/-- Model of `_identify_document_types`: filename-substring rules. -/
def identifyDocumentTypes (filename : String) : String :=
  let f := lowerStr filename
  if hasSubstr "call-fiche" f || hasSubstr "call_fiche" f then
    "call_document"
  else if hasSubstr "faq" f then "faq"
  else if hasSubstr "template" f then "template"
  else if hasSubstr "guide" f || hasSubstr "guideline" f then "guide"
  else if hasSubstr "aga" f then "administrative_guide"
  else if hasSubstr "evaluation" f then "evaluation_guide"
  else "other"

/-- Decimal rendering of a number, for prompt text. -/
def natStr (n : Nat) : String := Nat.repr n

/-- The per-group summary block of the comparison prompt. -/
def grantSummary (g : String × List DocD) : String :=
  let docTypes :=
    g.2.map (fun d => identifyDocumentTypes (d.metadata.filename.getD ""))
  let preview :=
    match g.2 with
    | [] => ""
    | d :: _ => takeStr d.content 300 ++ "..."
  "\nGrant ID: " ++ g.1 ++ "\nDocument Types: " ++
    joinSep ", " (dedupBy id docTypes []) ++ "\nDocument Count: " ++
    natStr g.2.length ++ "\nContent Preview: " ++ preview ++ "\n"

/-- The formatted comparison prompt of `_perform_cross_grant_comparison`. -/
def comparisonPrompt (grantSummaries query : String) : String :=
  "You are analyzing multiple AMIF grant programs for comparison.\n\n" ++
  "Grant Groups Available:\n" ++ grantSummaries ++
  "\n\nUser Query: " ++ query ++
  "\n\nPlease provide a detailed comparison focusing on:\n" ++
  "1. Key differences between grants\n" ++
  "2. Eligibility criteria variations\n" ++
  "3. Budget allocation differences\n" ++
  "4. Target group distinctions\n" ++
  "5. Implementation requirements\n\n" ++
  "Respond in the same language as the query.\n\nComparison Analysis:"

/-- Model of `CrossDocumentAgent._perform_cross_grant_comparison`: fewer
than two groups short-circuits without an LLM call; an LLM failure is
caught and converted into an error-tagged result. -/
def performCrossGrantComparison (llm : String → Except String String)
    (groups : List (String × List DocD)) (query : String) : CompResult :=
  if groups.length < 2 then .singleGrant "Tek grant analizi"
  else
    let summaries := joinSep "\n" (groups.map grantSummary)
    match llm (comparisonPrompt summaries query) with
    | .ok resp =>
      .crossGrant resp (groups.map Prod.fst)
        ((groups.map (fun g => g.2.length)).sum)
    | .error e =>
      .errorTagged ("Karşılaştırma hatası: " ++ e) (groups.map Prod.fst)

/-- One document block of the synthesis prompt. -/
def synthDocBlock (i : Nat) (d : DocD) : String :=
  let filename := d.metadata.filename.getD ("Document " ++ natStr (i + 1))
  let content :=
    if 500 < strLen d.content then takeStr d.content 500 ++ "..."
    else d.content
  "\nFile: " ++ filename ++ "\nContent: " ++ content ++ "\n"

/-- One group block of the synthesis prompt. -/
def synthGroupBlock (g : String × List DocD) : String :=
  "\n--- Grant Group: " ++ g.1 ++ " ---\n" ++
    joinSep "" (g.2.enum.map (fun p => synthDocBlock p.1 p.2))

/-- The formatted synthesis prompt of `_synthesize_cross_document_answer`. -/
def synthesisPrompt (documentGroups query : String) : String :=
  "You are analyzing information from multiple AMIF grant documents to " ++
  "provide a comprehensive answer.\n\nDocument Groups:\n" ++
  documentGroups ++ "\n\nUser Question: " ++ query ++
  "\n\nPlease synthesize information from across all documents to " ++
  "provide:\n1. A comprehensive answer based on ALL relevant documents\n" ++
  "2. Identification of any conflicting information between documents\n" ++
  "3. Gaps where information might be missing\n" ++
  "4. Cross-references between related information in different " ++
  "documents\n\nImportant:\n- Respond in the same language as the " ++
  "question\n- Clearly indicate which documents support each piece of " ++
  "information\n- Highlight any discrepancies or complementary " ++
  "information\n- Provide a holistic view that combines insights from " ++
  "multiple sources\n\nSynthesized Answer:"

/-- Model of `CrossDocumentAgent._synthesize_cross_document_answer`
(the `documents` parameter is unused by the Python body as well): an LLM
failure is caught and converted into an error string. -/
def synthesizeCrossDocumentAnswer (llm : String → Except String String)
    (_docs : List DocD) (query : String)
    (groups : List (String × List DocD)) : String :=
  let dg := joinSep "\n" (groups.map synthGroupBlock)
  match llm (synthesisPrompt dg query) with
  | .ok resp => resp
  | .error e => "Belge sentezi hatası: " ++ e

/-! ### QA agent (QAAgent.execute) -/

/-- The small-talk list of the QA agent's short-circuit. -/
def simpleGreetings : List String :=
  ["hello", "hi", "hey", "merhaba", "selam", "ciao", "salve"]

/-- The fixed out-of-scope message. -/
def outOfScopeMsg : String :=
  "I\x27m designed to answer questions about AMIF grant documents. " ++
  "Please ask me about grant procedures, eligibility criteria, or " ++
  "application requirements."

/-- The fixed insufficient-information message. -/
def insufficientMsg : String :=
  "I couldn\x27t find sufficient information to answer your question."

/-- Model of `QAAgent._format_documents`. -/
def formatDocuments (documents : List DocD) : String :=
  joinSep "\n" (documents.enum.map (fun p =>
    "\nDocument " ++ natStr (p.1 + 1) ++ " - " ++
      p.2.metadata.filename.getD "Unknown Document" ++ " (Page " ++
      p.2.metadata.page_number.getD "Unknown page" ++ "):\n" ++
      p.2.content ++ "\n---\n"))

/-- Model of `QAAgent._format_cross_document_analysis`. -/
def formatCrossDocumentAnalysis (ca : CrossAnal) : String :=
  match ca with
  | .noneYet => "No cross-document analysis available."
  | .minimalA _ =>
    "Cross-document analysis completed but no significant insights found."
  | .fullA grantGroups rels comparison synthesized _tg _ci =>
    let parts1 :=
      if grantGroups.isEmpty then []
      else
        ("Grant Groups Analyzed: " ++ natStr grantGroups.length ++
          " groups") ::
          grantGroups.map (fun p =>
            "  - " ++ p.1 ++ ": " ++ natStr p.2 ++ " documents")
    let parts2 :=
      match comparison with
      | .crossGrant analysis grantsCompared _ =>
        ["\nGrant Comparison Analysis:", analysis,
          "Grants Compared: " ++ joinSep ", " grantsCompared]
      | _ => []
    let parts3 :=
      if synthesized != "" && !(hasSubstr "hatası" (lowerStr synthesized))
      then ["\nSynthesized Cross-Document Insights:", synthesized]
      else []
    let parts4 :=
      if rels.common_themes.isEmpty then []
      else
        "\nCommon Themes Across Documents:" ::
          (rels.common_themes.take 5).map (fun t =>
            "  - " ++ t.1 ++ ": " ++ natStr t.2 ++ " occurrences")
    let parts := parts1 ++ parts2 ++ parts3 ++ parts4
    if parts.isEmpty then
      "Cross-document analysis completed but no significant insights found."
    else joinSep "\n" parts

/-- The formatted universal QA prompt of `QAAgent`. -/
def qaPrompt (documents question crossAnalysis : String) : String :=
  "\nYou are given the following information from grant documents and a " ++
  "question.\nBased on this information, answer the question accurately " ++
  "and in detail.\n\nIMPORTANT: Respond in the same language as the " ++
  "question. If the question is in Turkish, respond in Turkish. If in " ++
  "English, respond in English. If in Italian, respond in Italian.\n\n" ++
  "Given Documents:\n" ++ documents ++
  "\n\nCross-Document Analysis (if available):\n" ++ crossAnalysis ++
  "\n\nQuestion: " ++ question ++
  "\n\nWhen answering:\n" ++
  "1. Use the information from the given documents AND cross-document " ++
  "analysis\n" ++
  "2. If cross-document analysis provides grant comparisons or " ++
  "synthesis, incorporate that into your answer\n" ++
  "3. Specify which document each piece of information comes from\n" ++
  "4. If comparing multiple grants, highlight the differences and " ++
  "similarities clearly\n" ++
  "5. If the answer involves multiple grants, use the cross-document " ++
  "insights\n" ++
  "6. Respond in the SAME LANGUAGE as the question\n" ++
  "7. Provide a detailed and clear explanation that leverages both " ++
  "document content and cross-document insights\n\nAnswer:\n"

/-- Model of `QAAgent.execute`: short-circuits for tiny small-talk
queries and for an empty query or empty document list; otherwise invoke
the LLM with no local exception handling (a failure propagates). -/
def qaExecute (llm : String → Except String String) (st : PState) :
    Except String PState :=
  if decide ((pySplit (trimStr st.query)).length < 3)
      && simpleGreetings.any (fun g => hasSubstr g (lowerStr st.query)) then
    .ok { st with qa_response := outOfScopeMsg, qa_performed := true }
  else if st.query = "" ∨ st.retrieved_documents = [] then
    .ok { st with qa_response := insufficientMsg, qa_performed := true }
  else
    match llm (qaPrompt (formatDocuments st.retrieved_documents) st.query
        (formatCrossDocumentAnalysis st.cross_document_analysis)) with
    | .ok resp => .ok { st with qa_response := resp, qa_performed := true }
    | .error e => .error e

theorem qaCond_false (st : PState)
    (h : ¬ ((pySplit (trimStr st.query)).length < 3 ∧
      simpleGreetings.any (fun g => hasSubstr g (lowerStr st.query)) = true)) :
    (decide ((pySplit (trimStr st.query)).length < 3)
      && simpleGreetings.any (fun g => hasSubstr g (lowerStr st.query)))
      = false := by
  by_cases hA : (pySplit (trimStr st.query)).length < 3
  · cases hB : simpleGreetings.any (fun g => hasSubstr g (lowerStr st.query))
    · simp [hB]
    · exact absurd ⟨hA, hB⟩ h
  · simp [hA]

/-- Claim C8: the QA agent's two short-circuits: a query of fewer than 3
tokens containing a small-talk phrase yields the fixed out-of-scope
message, and otherwise an empty query or empty document list yields the
fixed insufficient-information message; both set the completion flag and
hold for every LLM backend (no LLM invocation). -/
theorem qa_short_circuits (llm : String → Except String String)
    (st : PState) :
    ((pySplit (trimStr st.query)).length < 3 →
      simpleGreetings.any (fun g => hasSubstr g (lowerStr st.query)) = true →
      qaExecute llm st =
        .ok { st with qa_response := outOfScopeMsg, qa_performed := true })
    ∧ (¬ ((pySplit (trimStr st.query)).length < 3 ∧
        simpleGreetings.any (fun g => hasSubstr g (lowerStr st.query)) = true) →
      (st.query = "" ∨ st.retrieved_documents = []) →
      qaExecute llm st =
        .ok { st with
          qa_response := insufficientMsg
          qa_performed := true }) := by
  constructor
  · intro h1 h2
    rw [qaExecute, if_pos (by simp [h1, h2])]
  · intro h hd
    rw [qaExecute]
    rw [if_neg (by simp [qaCond_false st h])]
    rw [if_pos hd]

/-- A failing LLM backend used by witnesses. -/
def llmFailW : String → Except String String := fun _ => .error "llm down"

/-- A state holding a two-token greeting query, used by witnesses. -/
def stW8 : PState := { emptyState with query := "hi there" }

/-- Witness for C8: the query "hi there" short-circuits to the fixed
out-of-scope message even under a failing LLM backend. -/
theorem qa_short_circuits_witness :
    qaExecute llmFailW stW8 =
      .ok { stW8 with qa_response := outOfScopeMsg, qa_performed := true } :=
  (qa_short_circuits llmFailW stW8).1 (by decide) (by decide)

/-- Claim C5: error-handling asymmetry.  An LLM failure inside
`QAAgent.execute` (past the short-circuits) propagates to the caller as
`.error`; the same failure inside the cross-document comparison is caught
and becomes an error-tagged result, and inside the synthesis step becomes
an error string — both without raising (they are total functions). -/
theorem error_handling_asymmetry (e : String) (st : PState)
    (groups : List (String × List DocD)) (docs : List DocD) (q : String) :
    (¬ ((pySplit (trimStr st.query)).length < 3 ∧
        simpleGreetings.any (fun g => hasSubstr g (lowerStr st.query)) = true) →
      st.query ≠ "" → st.retrieved_documents ≠ [] →
      qaExecute (fun _ => .error e) st = .error e)
    ∧ (2 ≤ groups.length →
      performCrossGrantComparison (fun _ => .error e) groups q =
        .errorTagged ("Karşılaştırma hatası: " ++ e) (groups.map Prod.fst))
    ∧ synthesizeCrossDocumentAnswer (fun _ => .error e) docs q groups =
        "Belge sentezi hatası: " ++ e := by
  refine ⟨?_, ?_, rfl⟩
  · intro h hq hd
    rw [qaExecute]
    rw [if_neg (by simp [qaCond_false st h])]
    rw [if_neg (by rintro (hc | hc); exact hq hc; exact hd hc)]
  · intro h
    rw [performCrossGrantComparison, if_neg (by omega)]

/-- A state with a three-token in-scope query and one document, used by
witnesses. -/
def stW5 : PState :=
  { emptyState with
    query := "what is budget"
    retrieved_documents := [docW] }

/-- Two concrete grant groups, used by witnesses. -/
def groupsW : List (String × List DocD) := [("A", [docW]), ("B", [docW])]

/-- Witness for C5: with a failing LLM the QA agent propagates the error,
while the comparison step returns the error-tagged result. -/
theorem error_handling_asymmetry_witness :
    qaExecute (fun _ => .error "boom") stW5 = .error "boom"
    ∧ performCrossGrantComparison (fun _ => .error "boom") groupsW "q" =
      .errorTagged ("Karşılaştırma hatası: " ++ "boom")
        (groupsW.map Prod.fst) :=
  ⟨(error_handling_asymmetry "boom" stW5 groupsW [] "q").1 (by decide)
      (by decide) (by decide),
    (error_handling_asymmetry "boom" stW5 groupsW [] "q").2.1 (by decide)⟩

end DrugBot
